import Mathlib

/-!
Shallow embedding of the todo CRUD service of `src/types/todo.types.ts`
(the file also holds the `TodoService` class).  JavaScript strings are
modelled as Lean `String`, `String.prototype.trim` as `jsTrim` (drop
whitespace from both ends), `.length` as the character count, and the ISO
timestamp produced by `new Date().toISOString()` as a `Nat` clock value
passed to each operation.  Duck-typed request fields are modelled by
`JSVal` (string / number / boolean / null), an absent field by `none`.
A thrown `Error` from the validators is `TodoError.validation`; the
`null` result that signals a missing id is `TodoError.notFound`; a
JavaScript `TypeError` raised while evaluating an expression (calling
`.trim` on a non-string) is `TodoError.typeError`.
-/

namespace TodoApp

/-- A JavaScript runtime value as far as the service's duck typing looks
at it: strings, numbers (modelled as `Int`), booleans and `null`. -/
inductive JSVal where
  | vstr : String → JSVal
  | vnum : Int → JSVal
  | vbool : Bool → JSVal
  | vnull : JSVal
deriving DecidableEq, Repr

/-- JavaScript truthiness of a value: `""`, `0`, `false` and `null` are
falsy, everything else this model covers is truthy. -/
def JSVal.truthy : JSVal → Bool
  | .vstr s => !(s == "")
  | .vnum n => !(n == 0)
  | .vbool b => b
  | .vnull => false

/-- Truthiness of a possibly absent field (`undefined` is falsy). -/
def optTruthy : Option JSVal → Bool
  | none => false
  | some v => v.truthy

/-- `typeof v === 'string'` on a possibly absent field. -/
def optIsString : Option JSVal → Bool
  | some (JSVal.vstr _) => true
  | _ => false

/-- `typeof v === 'boolean'` on a possibly absent field. -/
def optIsBool : Option JSVal → Bool
  | some (JSVal.vbool _) => true
  | _ => false

/-- The string payload of a field (only read on paths where the
validators have already established the field is a string). -/
def optStr : Option JSVal → String
  | some (JSVal.vstr s) => s
  | _ => ""

/-- The boolean payload of a field (only read after validation). -/
def optBool : Option JSVal → Bool
  | some (JSVal.vbool b) => b
  | _ => false

/-- Both-ends whitespace trimming on the character list, the model of
`String.prototype.trim`. -/
def trimChars (l : List Char) : List Char :=
  ((l.dropWhile Char.isWhitespace).reverse.dropWhile Char.isWhitespace).reverse

/-- The model of JavaScript `s.trim()`. -/
def jsTrim (s : String) : String :=
  String.mk (trimChars s.data)

/-- A stored todo record (`interface Todo`); timestamps are clock values. -/
structure Todo where
  id : Nat
  title : String
  description : String
  completed : Bool
  createdAt : Nat
  updatedAt : Nat
deriving DecidableEq, Repr

/-- The request body of a create call (`CreateTodoInput`), each field a
possibly absent JavaScript value. -/
structure CreateTodoInput where
  title : Option JSVal := none
  description : Option JSVal := none
deriving DecidableEq, Repr

/-- The request body of an update call (`UpdateTodoInput`). -/
structure UpdateTodoInput where
  title : Option JSVal := none
  description : Option JSVal := none
  completed : Option JSVal := none
deriving DecidableEq, Repr

/-- How a service call fails: a validator `throw new Error(msg)`, the
`null` return for a missing id, or a JavaScript `TypeError` raised while
evaluating an expression. -/
inductive TodoError where
  | validation : String → TodoError
  | notFound : TodoError
  | typeError : String → TodoError
deriving DecidableEq, Repr

/-- The service's private state: the `todos` array and the `nextId`
counter. -/
structure ServiceState where
  todos : List Todo := []
  nextId : Nat := 1
deriving DecidableEq, Repr

/-- The state a fresh `TodoService` starts in. -/
def initialState : ServiceState := {}

deriving instance DecidableEq for Except

/-- `true` exactly on a thrown validation error. -/
def isValidationErr {α : Type} : Except TodoError α → Bool
  | .error (.validation _) => true
  | _ => false

/-- `true` exactly on the not-found failure. -/
def isNotFoundErr {α : Type} : Except TodoError α → Bool
  | .error .notFound => true
  | _ => false

/-- `validateCreateInput` (todo.types.ts lines 134-154): the same guard
conditions in the same order, each `throw` an `Except.error`. -/
def validateCreateInput (input : CreateTodoInput) : Except TodoError Unit :=
  if !optTruthy input.title || !optIsString input.title then
    .error (.validation "Title is required and must be a string")
  else if (jsTrim (optStr input.title)).length == 0 then
    .error (.validation "Title cannot be empty")
  else if (jsTrim (optStr input.title)).length > 200 then
    .error (.validation "Title cannot be longer than 200 characters")
  else if optTruthy input.description && !optIsString input.description then
    .error (.validation "Description must be a string")
  else if optTruthy input.description && (jsTrim (optStr input.description)).length > 1000 then
    .error (.validation "Description cannot be longer than 1000 characters")
  else
    .ok ()

/-- The expression `input.description?.trim() || ''` of `createTodo`.
Optional chaining only guards `undefined` and `null`; on a number or a
boolean (which only reach this point when falsy, since truthy
non-strings were rejected by validation) the member call `.trim` raises
a `TypeError`. -/
def descValue : Option JSVal → Except TodoError String
  | none => .ok ""
  | some JSVal.vnull => .ok ""
  | some (JSVal.vstr s) => .ok (jsTrim s)
  | some (JSVal.vnum _) => .error (.typeError "input.description?.trim is not a function")
  | some (JSVal.vbool _) => .error (.typeError "input.description?.trim is not a function")

/-- `createTodo` (todo.types.ts lines 58-74).  The object literal
evaluates `id: this.nextId++` before the description expression, so a
`TypeError` thrown there has already consumed the id; a validation
failure happens before any mutation. -/
def createTodo (now : Nat) (input : CreateTodoInput) (s : ServiceState) :
    Except TodoError Todo × ServiceState :=
  match validateCreateInput input with
  | .error e => (.error e, s)
  | .ok _ =>
    let s1 : ServiceState := { s with nextId := s.nextId + 1 }
    match descValue input.description with
    | .error e => (.error e, s1)
    | .ok desc =>
      let newTodo : Todo :=
        { id := s.nextId
          title := jsTrim (optStr input.title)
          description := desc
          completed := false
          createdAt := now
          updatedAt := now }
      (.ok newTodo, { s1 with todos := s1.todos ++ [newTodo] })

/-- `getAllTodos` (todo.types.ts lines 47-49): `[...this.todos]` as a
value.  (The aliasing of the array's elements is modelled separately in
namespace `RefModel`.) -/
def getAllTodos (s : ServiceState) : List Todo :=
  s.todos

/-- `getTodoById` (todo.types.ts lines 52-55): the `null` return is the
not-found failure. -/
def getTodoById (id : Nat) (s : ServiceState) : Except TodoError Todo :=
  match s.todos.find? (fun t => t.id == id) with
  | some t => .ok t
  | none => .error .notFound

/-- `validateUpdateInput` (todo.types.ts lines 157-182): each provided
field checked with the guards of the source, in order. -/
def validateUpdateInput (input : UpdateTodoInput) : Except TodoError Unit :=
  if input.title.isSome && !optIsString input.title then
    .error (.validation "Title must be a string")
  else if input.title.isSome && (jsTrim (optStr input.title)).length == 0 then
    .error (.validation "Title cannot be empty")
  else if input.title.isSome && (jsTrim (optStr input.title)).length > 200 then
    .error (.validation "Title cannot be longer than 200 characters")
  else if input.description.isSome && !optIsString input.description then
    .error (.validation "Description must be a string")
  else if input.description.isSome && (jsTrim (optStr input.description)).length > 1000 then
    .error (.validation "Description cannot be longer than 1000 characters")
  else if input.completed.isSome && !optIsBool input.completed then
    .error (.validation "Completed must be a boolean")
  else
    .ok ()

/-- The object literal of `updateTodo`: spread of the current todo, the
provided fields applied trimmed, `updatedAt` refreshed. -/
def applyUpdate (now : Nat) (input : UpdateTodoInput) (t : Todo) : Todo :=
  { t with
    title := if input.title.isSome then jsTrim (optStr input.title) else t.title
    description :=
      if input.description.isSome then jsTrim (optStr input.description) else t.description
    completed := if input.completed.isSome then optBool input.completed else t.completed
    updatedAt := now }

/-- Replace the first todo whose id matches (the source's
`findIndex` + assignment at that index). -/
def updateFirst (id : Nat) (f : Todo → Todo) : List Todo → List Todo
  | [] => []
  | t :: ts => if t.id == id then f t :: ts else t :: updateFirst id f ts

/-- Remove the first todo whose id matches (the source's
`findIndex` + `splice(index, 1)`). -/
def removeFirst (id : Nat) : List Todo → List Todo
  | [] => []
  | t :: ts => if t.id == id then ts else t :: removeFirst id ts

/-- `updateTodo` (todo.types.ts lines 76-97): the not-found test comes
before validation, so an absent id wins over invalid fields. -/
def updateTodo (now : Nat) (id : Nat) (input : UpdateTodoInput) (s : ServiceState) :
    Except TodoError Todo × ServiceState :=
  match s.todos.find? (fun t => t.id == id) with
  | none => (.error .notFound, s)
  | some t =>
    match validateUpdateInput input with
    | .error e => (.error e, s)
    | .ok _ =>
      let updated := applyUpdate now input t
      (.ok updated, { s with todos := updateFirst id (fun _ => updated) s.todos })

/-- `deleteTodo` (todo.types.ts lines 99-108). -/
def deleteTodo (id : Nat) (s : ServiceState) :
    Except TodoError Todo × ServiceState :=
  match s.todos.find? (fun t => t.id == id) with
  | none => (.error .notFound, s)
  | some t => (.ok t, { s with todos := removeFirst id s.todos })

/-- `toggleTodo` (todo.types.ts lines 110-121): the in-place mutation of
the found object is the replacement of the first matching element. -/
def toggleTodo (now : Nat) (id : Nat) (s : ServiceState) :
    Except TodoError Todo × ServiceState :=
  match s.todos.find? (fun t => t.id == id) with
  | none => (.error .notFound, s)
  | some t =>
    let toggled : Todo := { t with completed := !t.completed, updatedAt := now }
    (.ok toggled, { s with todos := updateFirst id (fun _ => toggled) s.todos })

/-- The record `getStats` returns. -/
structure Stats where
  total : Nat
  completed : Nat
  pending : Nat
  completionRate : Nat
deriving DecidableEq, Repr

/-- `getStats` (todo.types.ts lines 124-131).  `Math.round(x)` for
`x ≥ 0` is `⌊x + 1/2⌋`, so the exact value of
`Math.round((completed / total) * 100)` is `(200*completed + total) / (2*total)`
in natural division. -/
def getStats (s : ServiceState) : Stats :=
  let total := s.todos.length
  let completed := (s.todos.filter (fun t => t.completed)).length
  let pending := total - completed
  let completionRate := if total > 0 then (200 * completed + total) / (2 * total) else 0
  { total := total, completed := completed, pending := pending, completionRate := completionRate }

/-! ### The clock and reachability

Operations read the wall clock (`new Date().toISOString()`); a trace is
admissible when the clock never runs backwards, i.e. every call's `now`
is at least every timestamp already stored. -/

/-- The wall clock has reached `now`: no stored timestamp exceeds it. -/
def ClockOK (s : ServiceState) (now : Nat) : Prop :=
  ∀ t ∈ s.todos, t.createdAt ≤ now ∧ t.updatedAt ≤ now

/-- Record the id of a successfully created todo. -/
def recordCreated : Except TodoError Todo → List Nat → List Nat
  | .ok t, ids => t.id :: ids
  | .error _, ids => ids

/-- `Reaches s ids`: state `s` is reachable from a fresh service by a
sequence of mutating calls under a monotone clock, and `ids` collects the
id of every todo ever returned by a successful create (whether or not it
was later deleted). -/
inductive Reaches : ServiceState → List Nat → Prop where
  | init : Reaches initialState []
  | create {s ids now input} : Reaches s ids → ClockOK s now →
      Reaches (createTodo now input s).2 (recordCreated (createTodo now input s).1 ids)
  | update {s ids now id input} : Reaches s ids → ClockOK s now →
      Reaches (updateTodo now id input s).2 ids
  | toggle {s ids now id} : Reaches s ids → ClockOK s now →
      Reaches (toggleTodo now id s).2 ids
  | delete {s ids id} : Reaches s ids →
      Reaches (deleteTodo id s).2 ids

/-- The state invariant of claim C7: ids strictly increasing along the
collection (insertion order, hence also pairwise distinct), every stored
id below the counter, titles non-empty after trimming, and
`createdAt ≤ updatedAt`. -/
def Inv (s : ServiceState) : Prop :=
  List.Pairwise (· < ·) (s.todos.map Todo.id) ∧
  (∀ t ∈ s.todos, t.id < s.nextId) ∧
  (∀ t ∈ s.todos, jsTrim t.title ≠ "") ∧
  (∀ t ∈ s.todos, t.createdAt ≤ t.updatedAt)

/-- The disjunction of the guards of `validateCreateInput`, as one
boolean. -/
def createBad (input : CreateTodoInput) : Bool :=
  (!optTruthy input.title || !optIsString input.title) ||
  ((jsTrim (optStr input.title)).length == 0) ||
  (decide ((jsTrim (optStr input.title)).length > 200)) ||
  (optTruthy input.description && !optIsString input.description) ||
  (optTruthy input.description && decide ((jsTrim (optStr input.description)).length > 1000))

/-- The disjunction of the guards of `validateUpdateInput`, as one
boolean. -/
def updateBad (input : UpdateTodoInput) : Bool :=
  (input.title.isSome && !optIsString input.title) ||
  (input.title.isSome && ((jsTrim (optStr input.title)).length == 0)) ||
  (input.title.isSome && decide ((jsTrim (optStr input.title)).length > 200)) ||
  (input.description.isSome && !optIsString input.description) ||
  (input.description.isSome && decide ((jsTrim (optStr input.description)).length > 1000)) ||
  (input.completed.isSome && !optIsBool input.completed)

/-! ### Object-identity model of the reads (for the defensive-copy claim)

The value-level model above cannot express aliasing, so the reads are
modelled once more with explicit object identity: every todo object
lives at a heap address, the service's `todos` array is a list of
addresses, and a JavaScript spread `{...todo}` is an allocation of a
fresh address holding the same field values.  `[...this.todos]` in
`getAllTodos` copies the array only: the returned list holds the same
addresses the service holds. -/

namespace RefModel

/-- The object at address `a` (a dummy todo when the address is
dangling, which never happens for the service's own references). -/
def heapGet (h : List (Nat × Todo)) (a : Nat) : Todo :=
  ((h.find? (fun p => p.1 == a)).map Prod.snd).getD
    { id := 0, title := "", description := "", completed := false, createdAt := 0, updatedAt := 0 }

/-- Overwrite the object at address `a` (a caller assigning through a
reference it holds). -/
def heapSet (h : List (Nat × Todo)) (a : Nat) (t : Todo) : List (Nat × Todo) :=
  h.map (fun p => if p.1 == a then (a, t) else p)

/-- The service state with object identity: the heap, the allocation
counter, the `todos` array as a list of references, and `nextId`. -/
structure HState where
  heap : List (Nat × Todo) := []
  nextAddr : Nat := 0
  storeRefs : List Nat := []
  nextId : Nat := 1
deriving DecidableEq, Repr

/-- A fresh service. -/
def initialH : HState := {}

/-- Allocate a fresh object (an object literal or a spread copy). -/
def alloc (t : Todo) (s : HState) : Nat × HState :=
  (s.nextAddr, { s with heap := (s.nextAddr, t) :: s.heap, nextAddr := s.nextAddr + 1 })

/-- `createTodo` with object identity: the new todo object is allocated,
its reference pushed into `this.todos`, and the returned `{...newTodo}`
is a second, fresh object. -/
def createTodoR (now : Nat) (input : CreateTodoInput) (s : HState) :
    Except TodoError Nat × HState :=
  match validateCreateInput input with
  | .error e => (.error e, s)
  | .ok _ =>
    let s0 : HState := { s with nextId := s.nextId + 1 }
    match descValue input.description with
    | .error e => (.error e, s0)
    | .ok desc =>
      let newTodo : Todo :=
        { id := s.nextId, title := jsTrim (optStr input.title), description := desc,
          completed := false, createdAt := now, updatedAt := now }
      let p1 := alloc newTodo s0
      let s2 : HState := { p1.2 with storeRefs := p1.2.storeRefs ++ [p1.1] }
      let p2 := alloc newTodo s2
      (.ok p2.1, p2.2)

/-- `getAllTodos`: `[...this.todos]` — a fresh array value holding the
service's own object references. -/
def getAllTodosR (s : HState) : List Nat :=
  s.storeRefs

/-- `getTodoById`: find by id through the stored references; on a hit,
return a reference to a fresh copy `{...todo}` of the found object. -/
def getTodoByIdR (id : Nat) (s : HState) : Except TodoError Nat × HState :=
  match s.storeRefs.find? (fun a => (heapGet s.heap a).id == id) with
  | none => (.error .notFound, s)
  | some a =>
    let p := alloc (heapGet s.heap a) s
    (.ok p.1, p.2)

/-- A caller mutating the todo object at address `a`; the service's
reference array is untouched. -/
def heapWrite (a : Nat) (t : Todo) (s : HState) : HState :=
  { s with heap := heapSet s.heap a t }

/-- The stored todos by value, as the service reads them through its own
references. -/
def serviceView (s : HState) : List Todo :=
  s.storeRefs.map (heapGet s.heap)

end RefModel

/-! ### Helper lemmas -/

theorem trimChars_eq (l : List Char) :
    trimChars l = List.rdropWhile Char.isWhitespace (List.dropWhile Char.isWhitespace l) := by
  simp [trimChars, List.rdropWhile]

theorem dropWhile_trimChars (l : List Char) :
    List.dropWhile Char.isWhitespace (trimChars l) = trimChars l := by
  rw [trimChars_eq]
  rcases h : List.rdropWhile Char.isWhitespace (List.dropWhile Char.isWhitespace l) with _ | ⟨a, m⟩
  · simp
  · have hpre : a :: m <+: List.dropWhile Char.isWhitespace l := h ▸ List.rdropWhile_prefix _ _
    have hlen : 0 < (List.dropWhile Char.isWhitespace l).length :=
      Nat.lt_of_lt_of_le (by simp) hpre.length_le
    have hhead : ¬ Char.isWhitespace ((List.dropWhile Char.isWhitespace l).get ⟨0, hlen⟩) :=
      List.dropWhile_get_zero_not _ _ hlen
    have ha : (List.dropWhile Char.isWhitespace l).get ⟨0, hlen⟩ = a := by
      have h0 : (0 : Nat) < (a :: m).length := by simp
      have := hpre.getElem h0
      simpa using this.symm
    rw [List.dropWhile_cons, if_neg (by rw [← ha]; simpa using hhead)]

theorem trimChars_idempotent (l : List Char) :
    trimChars (trimChars l) = trimChars l := by
  rw [trimChars_eq (trimChars l), dropWhile_trimChars, trimChars_eq l,
    List.rdropWhile_idempotent, ← trimChars_eq]

theorem jsTrim_idempotent (s : String) : jsTrim (jsTrim s) = jsTrim s := by
  simp [jsTrim, trimChars_idempotent]

theorem jsTrim_length (s : String) : (jsTrim s).length = (trimChars s.data).length := rfl

theorem jsTrim_ne_empty_of_length {s : String} (h : (jsTrim s).length ≠ 0) :
    jsTrim s ≠ "" := by
  intro he
  exact h (by rw [he]; rfl)

theorem updateFirst_map_id {id : Nat} {f : Todo → Todo}
    (hf : ∀ t : Todo, t.id = id → (f t).id = t.id) :
    ∀ l : List Todo, (updateFirst id f l).map Todo.id = l.map Todo.id := by
  intro l
  induction l with
  | nil => rfl
  | cons t ts ih =>
    by_cases h : t.id = id
    · simp [updateFirst, h, hf t h]
    · simp [updateFirst, h, ih]

theorem updateFirst_length (id : Nat) (f : Todo → Todo) (l : List Todo) :
    (updateFirst id f l).length = l.length := by
  induction l with
  | nil => rfl
  | cons t ts ih =>
    by_cases h : t.id = id <;> simp [updateFirst, h, ih]

theorem updateFirst_forall {P : Todo → Prop} {id : Nat} {f : Todo → Todo} {l : List Todo}
    (h : ∀ t ∈ l, P t) (hf : ∀ t ∈ l, t.id = id → P (f t)) :
    ∀ u ∈ updateFirst id f l, P u := by
  induction l with
  | nil => intro u hu; simp [updateFirst] at hu
  | cons t ts ih =>
    intro u hu
    by_cases hid : t.id = id
    · rw [updateFirst, if_pos (by simpa using hid)] at hu
      rcases List.mem_cons.mp hu with hu | hu
      · exact hu ▸ hf t (by simp) hid
      · exact h u (List.mem_cons_of_mem _ hu)
    · rw [updateFirst, if_neg (by simpa using hid)] at hu
      rcases List.mem_cons.mp hu with hu | hu
      · exact hu ▸ h t (by simp)
      · exact ih (fun v hv => h v (List.mem_cons_of_mem _ hv))
          (fun v hv hvid => hf v (List.mem_cons_of_mem _ hv) hvid) u hu

theorem find?_updateFirst {id : Nat} {f : Todo → Todo}
    (hf : ∀ t : Todo, t.id = id → (f t).id = t.id) :
    ∀ l : List Todo,
      (updateFirst id f l).find? (fun t => t.id == id) =
        (l.find? (fun t => t.id == id)).map f := by
  intro l
  induction l with
  | nil => rfl
  | cons t ts ih =>
    by_cases h : t.id = id
    · rw [updateFirst, if_pos (by simpa using h)]
      rw [List.find?_cons_of_pos _ (by simpa using hf t h ▸ h),
        List.find?_cons_of_pos _ (by simpa using h)]
      rfl
    · rw [updateFirst, if_neg (by simpa using h)]
      rw [List.find?_cons_of_neg _ (by simpa using h),
        List.find?_cons_of_neg _ (by simpa using h), ih]

theorem removeFirst_sublist (id : Nat) :
    ∀ l : List Todo, List.Sublist (removeFirst id l) l := by
  intro l
  induction l with
  | nil => exact List.Sublist.refl []
  | cons t ts ih =>
    by_cases h : t.id = id
    · rw [removeFirst, if_pos (by simpa using h)]
      exact List.sublist_cons_of_sublist t (List.Sublist.refl ts)
    · rw [removeFirst, if_neg (by simpa using h)]
      exact List.Sublist.cons₂ t ih

theorem removeFirst_length {id : Nat} {l : List Todo} {t : Todo}
    (h : l.find? (fun u => u.id == id) = some t) :
    (removeFirst id l).length + 1 = l.length := by
  induction l with
  | nil => simp at h
  | cons a ts ih =>
    by_cases ha : a.id = id
    · rw [removeFirst, if_pos (by simpa using ha)]
      simp
    · rw [List.find?_cons_of_neg _ (by simpa using ha)] at h
      rw [removeFirst, if_neg (by simpa using ha)]
      simp [ih h]

theorem find?_removeFirst_none {id : Nat} {l : List Todo}
    (hnd : List.Pairwise (· ≠ ·) (l.map Todo.id)) :
    (removeFirst id l).find? (fun t => t.id == id) = none := by
  induction l with
  | nil => rfl
  | cons a ts ih =>
    rw [List.map_cons, List.pairwise_cons] at hnd
    by_cases ha : a.id = id
    · rw [removeFirst, if_pos (by simpa using ha)]
      apply List.find?_eq_none.mpr
      intro u hu hbeq
      have huid : u.id = id := by simpa using hbeq
      exact hnd.1 u.id (List.mem_map_of_mem _ hu) (by rw [ha, huid])
    · rw [removeFirst, if_neg (by simpa using ha)]
      rw [List.find?_cons_of_neg _ (by simpa using ha)]
      exact ih hnd.2

theorem isValidationErr_validateCreate (input : CreateTodoInput) :
    isValidationErr (validateCreateInput input) = createBad input := by
  unfold validateCreateInput createBad
  split_ifs with h1 h2 h3 h4 h5 <;> simp_all [isValidationErr]

theorem isValidationErr_validateUpdate (input : UpdateTodoInput) :
    isValidationErr (validateUpdateInput input) = updateBad input := by
  unfold validateUpdateInput updateBad
  split_ifs with h1 h2 h3 h4 h5 h6 <;> simp_all [isValidationErr]

theorem validateCreate_ok_iff (input : CreateTodoInput) :
    validateCreateInput input = .ok () ↔ createBad input = false := by
  rw [← isValidationErr_validateCreate]
  unfold validateCreateInput
  split_ifs <;> simp [isValidationErr]

theorem validateUpdate_ok_iff (input : UpdateTodoInput) :
    validateUpdateInput input = .ok () ↔ updateBad input = false := by
  rw [← isValidationErr_validateUpdate]
  unfold validateUpdateInput
  split_ifs <;> simp [isValidationErr]

theorem validateCreate_ok_title_len {input : CreateTodoInput}
    (h : validateCreateInput input = .ok ()) :
    (jsTrim (optStr input.title)).length ≠ 0 := by
  unfold validateCreateInput at h
  split_ifs at h with h1 h2 h3 h4 h5 <;> simp_all

theorem validateUpdate_ok_title_len {input : UpdateTodoInput}
    (h : validateUpdateInput input = .ok ()) (ht : input.title.isSome = true) :
    (jsTrim (optStr input.title)).length ≠ 0 := by
  unfold validateUpdateInput at h
  split_ifs at h with h1 h2 h3 h4 h5 h6 <;> simp_all

theorem string_length_zero_iff {s : String} : s.length = 0 ↔ s = "" := by
  cases s with
  | mk data =>
    cases data with
    | nil => simp
    | cons c cs =>
      constructor
      · intro h
        simp [String.length] at h
      · intro h
        have hd := congrArg String.data h
        simp at hd

theorem isValidationErr_createTodo (now : Nat) (input : CreateTodoInput) (s : ServiceState) :
    isValidationErr (createTodo now input s).1 = createBad input := by
  rcases hv : validateCreateInput input with e | u
  · have h2 := isValidationErr_validateCreate input
    rw [hv] at h2
    simp only [createTodo, hv]
    cases e <;> simp_all [isValidationErr]
  · cases u
    have hb : createBad input = false := by
      have h2 := isValidationErr_validateCreate input
      rw [hv] at h2
      simpa [isValidationErr] using h2.symm
    rw [hb]
    simp only [createTodo, hv]
    rcases hd : input.description with _ | v
    · simp [descValue, isValidationErr]
    · cases v <;> simp [descValue, isValidationErr]

theorem createBad_true_iff (input : CreateTodoInput) :
    createBad input = true ↔
      (optTruthy input.title = false ∨ optIsString input.title = false ∨
       jsTrim (optStr input.title) = "" ∨ 200 < (jsTrim (optStr input.title)).length ∨
       (optTruthy input.description = true ∧ optIsString input.description = false) ∨
       (optTruthy input.description = true ∧
         1000 < (jsTrim (optStr input.description)).length)) := by
  unfold createBad
  simp only [Bool.or_eq_true, Bool.and_eq_true, Bool.not_eq_true', beq_iff_eq,
    decide_eq_true_eq, string_length_zero_iff]
  tauto

theorem updateBad_true_iff (input : UpdateTodoInput) :
    updateBad input = true ↔
      ((input.title.isSome = true ∧
         (optIsString input.title = false ∨ jsTrim (optStr input.title) = "" ∨
          200 < (jsTrim (optStr input.title)).length)) ∨
       (input.description.isSome = true ∧
         (optIsString input.description = false ∨
          1000 < (jsTrim (optStr input.description)).length)) ∨
       (input.completed.isSome = true ∧ optIsBool input.completed = false)) := by
  unfold updateBad
  simp only [Bool.or_eq_true, Bool.and_eq_true, Bool.not_eq_true', beq_iff_eq,
    decide_eq_true_eq, string_length_zero_iff]
  tauto

theorem applyUpdate_id (now : Nat) (input : UpdateTodoInput) (t : Todo) :
    (applyUpdate now input t).id = t.id := rfl

theorem applyUpdate_createdAt (now : Nat) (input : UpdateTodoInput) (t : Todo) :
    (applyUpdate now input t).createdAt = t.createdAt := rfl

/-- Every reachable state satisfies the invariant, and every id a
successful create ever handed out is below the current counter. -/
theorem reaches_inv {s : ServiceState} {ids : List Nat} (h : Reaches s ids) :
    Inv s ∧ ∀ i ∈ ids, i < s.nextId := by
  induction h with
  | init =>
    refine ⟨⟨?_, ?_, ?_, ?_⟩, ?_⟩ <;> simp [initialState, Inv]
  | @create s ids now input hr hc ih =>
    rcases hv : validateCreateInput input with e | u
    · simpa [createTodo, hv, recordCreated] using ih
    · cases u
      rcases hd : descValue input.description with e | desc
      · refine ⟨⟨?_, ?_, ?_, ?_⟩, ?_⟩ <;>
          simp only [createTodo, hv, hd, recordCreated] <;>
        · first
          | exact ih.1.1
          | (intro t ht
             first
             | exact Nat.lt_succ_of_lt (ih.1.2.1 t ht)
             | exact ih.1.2.2.1 t ht
             | exact ih.1.2.2.2 t ht)
          | (intro i hi; exact Nat.lt_succ_of_lt (ih.2 i hi))
      · have hlen : (jsTrim (optStr input.title)).length ≠ 0 := validateCreate_ok_title_len hv
        have htitle : jsTrim (jsTrim (optStr input.title)) ≠ "" := by
          rw [jsTrim_idempotent]
          exact fun he => hlen (by rw [he]; rfl)
        refine ⟨⟨?_, ?_, ?_, ?_⟩, ?_⟩ <;>
          simp only [createTodo, hv, hd, recordCreated]
        · rw [List.map_append, List.pairwise_append]
          refine ⟨ih.1.1, by simp, ?_⟩
          intro a ha b hb
          simp only [List.map_cons, List.map_nil, List.mem_singleton] at hb
          subst hb
          obtain ⟨t, ht, rfl⟩ := List.mem_map.mp ha
          exact ih.1.2.1 t ht
        · intro t ht
          rcases List.mem_append.mp ht with ht | ht
          · exact Nat.lt_succ_of_lt (ih.1.2.1 t ht)
          · simp only [List.mem_singleton] at ht
            subst ht
            exact Nat.lt_succ_self _
        · intro t ht
          rcases List.mem_append.mp ht with ht | ht
          · exact ih.1.2.2.1 t ht
          · simp only [List.mem_singleton] at ht
            subst ht
            exact htitle
        · intro t ht
          rcases List.mem_append.mp ht with ht | ht
          · exact ih.1.2.2.2 t ht
          · simp only [List.mem_singleton] at ht
            subst ht
            exact Nat.le_refl _
        · intro i hi
          rcases List.mem_cons.mp hi with hi | hi
          · subst hi
            exact Nat.lt_succ_self _
          · exact Nat.lt_succ_of_lt (ih.2 i hi)
  | @update s ids now id input hr hc ih =>
    rcases hf : s.todos.find? (fun t => t.id == id) with _ | t
    · simpa [updateTodo, hf] using ih
    · rcases hv : validateUpdateInput input with e | u
      · simpa [updateTodo, hv, hf] using ih
      · cases u
        have htid : t.id = id := by simpa using List.find?_some hf
        have htmem : t ∈ s.todos := List.mem_of_find?_eq_some hf
        have hfid : ∀ u : Todo, u.id = id →
            ((fun _ => applyUpdate now input t) u).id = u.id := by
          intro u hu
          simp [applyUpdate_id, htid, hu]
        refine ⟨⟨?_, ?_, ?_, ?_⟩, ?_⟩ <;>
          simp only [updateTodo, hv, hf]
        · rw [updateFirst_map_id hfid]
          exact ih.1.1
        · exact updateFirst_forall ih.1.2.1
            (fun u hu huid => by
              rw [applyUpdate_id, htid]
              rw [← huid] at htid ⊢
              exact htid ▸ ih.1.2.1 t htmem)
        · refine updateFirst_forall ih.1.2.2.1 (fun u hu huid => ?_)
          by_cases hts : input.title.isSome
          · have := validateUpdate_ok_title_len hv (by simpa using hts)
            show jsTrim (applyUpdate now input t).title ≠ ""
            simp only [applyUpdate, hts, if_pos]
            rw [jsTrim_idempotent]
            exact fun he => this (by rw [he]; rfl)
          · show jsTrim (applyUpdate now input t).title ≠ ""
            have hts' : input.title.isSome = false := by simpa using hts
            simp only [applyUpdate, hts', Bool.false_eq_true, if_false]
            exact ih.1.2.2.1 t htmem
        · refine updateFirst_forall ih.1.2.2.2 (fun u hu huid => ?_)
          show (applyUpdate now input t).createdAt ≤ (applyUpdate now input t).updatedAt
          rw [applyUpdate_createdAt]
          exact (hc t htmem).1
        · exact ih.2
  | @toggle s ids now id hr hc ih =>
    rcases hf : s.todos.find? (fun t => t.id == id) with _ | t
    · simpa [toggleTodo, hf] using ih
    · have htid : t.id = id := by simpa using List.find?_some hf
      have htmem : t ∈ s.todos := List.mem_of_find?_eq_some hf
      have hfid : ∀ u : Todo, u.id = id →
          ((fun _ => ({ t with completed := !t.completed, updatedAt := now } : Todo)) u).id
            = u.id := by
        intro u hu
        simpa [htid] using hu.symm
      refine ⟨⟨?_, ?_, ?_, ?_⟩, ?_⟩ <;>
        simp only [toggleTodo, hf]
      · rw [updateFirst_map_id hfid]
        exact ih.1.1
      · exact updateFirst_forall ih.1.2.1
          (fun u hu huid => by simpa [htid, huid] using ih.1.2.1 t htmem)
      · exact updateFirst_forall ih.1.2.2.1
          (fun u hu huid => by simpa using ih.1.2.2.1 t htmem)
      · exact updateFirst_forall ih.1.2.2.2
          (fun u hu huid => by simpa using (hc t htmem).1)
      · exact ih.2
  | @delete s ids id hr ih =>
    rcases hf : s.todos.find? (fun t => t.id == id) with _ | t
    · simpa [deleteTodo, hf] using ih
    · have hsub : List.Sublist (removeFirst id s.todos) s.todos := removeFirst_sublist id s.todos
      refine ⟨⟨?_, ?_, ?_, ?_⟩, ?_⟩ <;>
        simp only [deleteTodo, hf]
      · exact List.Pairwise.sublist (hsub.map Todo.id) ih.1.1
      · exact fun t ht => ih.1.2.1 t (hsub.subset ht)
      · exact fun t ht => ih.1.2.2.1 t (hsub.subset ht)
      · exact fun t ht => ih.1.2.2.2 t (hsub.subset ht)
      · exact ih.2

/-! ### Claim theorems -/

/-- C1: for every valid create input (title a string whose trimmed length
is between 1 and 200, description absent or a string of trimmed length at
most 1000) and every reachable state, `createTodo` succeeds; the new todo
carries the trimmed title, the trimmed description (empty when absent),
`completed = false`, equal timestamps, and an id strictly greater than
the id of every todo ever created (deleted ones included); it is appended
at the end of the collection and the counter moves past it. -/
theorem createTodo_valid_spec (now : Nat) (x : String) (d : Option String)
    (s : ServiceState) (ids : List Nat)
    (hreach : Reaches s ids)
    (ht1 : 1 ≤ (jsTrim x).length) (ht2 : (jsTrim x).length ≤ 200)
    (hd : ∀ ds, d = some ds → (jsTrim ds).length ≤ 1000) :
    ∃ t s2,
      createTodo now { title := some (.vstr x), description := d.map JSVal.vstr } s
        = (.ok t, s2) ∧
      t.title = jsTrim x ∧
      t.description = (d.map jsTrim).getD "" ∧
      t.completed = false ∧ t.createdAt = now ∧ t.updatedAt = now ∧
      (∀ i ∈ ids, i < t.id) ∧
      s2.todos = s.todos ++ [t] ∧ s2.nextId = t.id + 1 := by
  have hx : x ≠ "" := by
    intro he
    subst he
    have : jsTrim "" = "" := rfl
    rw [this] at ht1
    simp at ht1
  have hids := (reaches_inv hreach).2
  have hok : validateCreateInput
      { title := some (.vstr x), description := d.map JSVal.vstr } = .ok () := by
    rw [validateCreate_ok_iff]
    rcases d with _ | ds
    · simp [createBad, optTruthy, optIsString, optStr, JSVal.truthy, hx]
      omega
    · have hds := hd ds rfl
      by_cases hde : ds = ""
      · subst hde
        simp [createBad, optTruthy, optIsString, optStr, JSVal.truthy, hx]
        omega
      · simp [createBad, optTruthy, optIsString, optStr, JSVal.truthy, hx, hde]
        omega
  rcases d with _ | ds
  · have key : createTodo now { title := some (.vstr x), description := Option.map JSVal.vstr none } s = (.ok { id := s.nextId, title := jsTrim x, description := "", completed := false, createdAt := now, updatedAt := now }, { todos := s.todos ++ [{ id := s.nextId, title := jsTrim x, description := "", completed := false, createdAt := now, updatedAt := now }], nextId := s.nextId + 1 }) := by
      rw [Option.map_none'] at hok
      simp only [createTodo, Option.map_none', descValue, hok]
      rfl
    exact ⟨_, _, key, rfl, rfl, rfl, rfl, rfl, fun i hi => hids i hi, rfl, rfl⟩
  · have key : createTodo now { title := some (.vstr x), description := Option.map JSVal.vstr (some ds) } s = (.ok { id := s.nextId, title := jsTrim x, description := jsTrim ds, completed := false, createdAt := now, updatedAt := now }, { todos := s.todos ++ [{ id := s.nextId, title := jsTrim x, description := jsTrim ds, completed := false, createdAt := now, updatedAt := now }], nextId := s.nextId + 1 }) := by
      rw [Option.map_some'] at hok
      simp only [createTodo, Option.map_some', descValue, hok]
      rfl
    exact ⟨_, _, key, rfl, rfl, rfl, rfl, rfl, fun i hi => hids i hi, rfl, rfl⟩

/-- Witness for C1 at a concrete input. -/
theorem createTodo_valid_spec_witness :
    ∃ t s2,
      createTodo 3 { title := some (.vstr "hi"), description := Option.map JSVal.vstr none } initialState = (.ok t, s2) ∧
      t.title = jsTrim "hi" ∧
      t.description = ((none : Option String).map jsTrim).getD "" ∧
      t.completed = false ∧ t.createdAt = 3 ∧ t.updatedAt = 3 ∧
      (∀ i ∈ ([] : List Nat), i < t.id) ∧
      s2.todos = initialState.todos ++ [t] ∧ s2.nextId = t.id + 1 :=
  createTodo_valid_spec 3 "hi" none initialState [] Reaches.init (by decide) (by decide)
    (fun ds h => Option.noConfusion h)

/-- C2 counterexample: a `null` description is provided and is not a
string, yet `createTodo` does not fail with a validation error — it
succeeds, storing an empty description. -/
theorem createTodo_null_description_accepted :
    (some JSVal.vnull ≠ (none : Option JSVal) ∧ optIsString (some JSVal.vnull) = false) ∧
    isValidationErr
      (createTodo 0 { title := some (.vstr "a"), description := some .vnull }
        initialState).1 = false ∧
    (createTodo 0 { title := some (.vstr "a"), description := some .vnull }
        initialState).1 =
      .ok { id := 1, title := "a", description := "", completed := false,
            createdAt := 0, updatedAt := 0 } := by
  decide

/-- C2 amended: `createTodo` fails with a validation error exactly when
the title is falsy or not a string, or empty after trimming, or longer
than 200 after trimming, or the description is truthy and not a string,
or truthy with trimmed length above 1000 (so a falsy non-string
description such as `null` is not a validation failure); in particular
a title of `""` or `"   "` always fails with a validation error. -/
theorem createTodo_validation_iff (now : Nat) (input : CreateTodoInput) (s : ServiceState) :
    (isValidationErr (createTodo now input s).1 = true ↔
      (optTruthy input.title = false ∨ optIsString input.title = false ∨
       jsTrim (optStr input.title) = "" ∨ 200 < (jsTrim (optStr input.title)).length ∨
       (optTruthy input.description = true ∧ optIsString input.description = false) ∨
       (optTruthy input.description = true ∧
         1000 < (jsTrim (optStr input.description)).length))) ∧
    isValidationErr (createTodo now { title := some (.vstr "") } s).1 = true ∧
    isValidationErr (createTodo now { title := some (.vstr "   ") } s).1 = true := by
  refine ⟨?_, ?_, ?_⟩
  · rw [isValidationErr_createTodo]
    exact createBad_true_iff input
  · rw [isValidationErr_createTodo]
    decide
  · rw [isValidationErr_createTodo]
    decide

theorem isValidationErr_updateTodo_found {now id : Nat} {input : UpdateTodoInput}
    {s : ServiceState} {t : Todo}
    (hf : s.todos.find? (fun u => u.id == id) = some t) :
    isValidationErr (updateTodo now id input s).1 = updateBad input := by
  rcases hv : validateUpdateInput input with e | u
  · have h2 := isValidationErr_validateUpdate input
    rw [hv] at h2
    simp only [updateTodo, hf, hv]
    cases e <;> simp_all [isValidationErr]
  · cases u
    have hb : updateBad input = false := by
      have h2 := isValidationErr_validateUpdate input
      rw [hv] at h2
      simpa [isValidationErr] using h2.symm
    simp only [updateTodo, hf, hv, hb, isValidationErr]

/-- C3: `updateTodo` fails with not-found when the id is absent — even
when the provided fields are invalid; when the id is present it fails
with a validation error exactly when a provided field breaks its rule
(title a non-empty trimmed string of at most 200 characters, description
a string of trimmed length at most 1000, completed a boolean); on
success the provided fields are applied trimmed, `updatedAt` is
refreshed, and every unspecified field — `id` and `createdAt` included —
keeps its previous value. -/
theorem updateTodo_spec (now id : Nat) (input : UpdateTodoInput) (s : ServiceState) :
    (s.todos.find? (fun t => t.id == id) = none →
      updateTodo now id input s = (.error .notFound, s)) ∧
    (∀ t, s.todos.find? (fun t => t.id == id) = some t →
      ((isValidationErr (updateTodo now id input s).1 = true ↔
        ((input.title.isSome = true ∧
           (optIsString input.title = false ∨ jsTrim (optStr input.title) = "" ∨
            200 < (jsTrim (optStr input.title)).length)) ∨
         (input.description.isSome = true ∧
           (optIsString input.description = false ∨
            1000 < (jsTrim (optStr input.description)).length)) ∨
         (input.completed.isSome = true ∧ optIsBool input.completed = false))) ∧
       (validateUpdateInput input = .ok () →
         updateTodo now id input s =
           (.ok (applyUpdate now input t),
            { s with todos := updateFirst id (fun _ => applyUpdate now input t) s.todos }) ∧
         getTodoById id
           { s with todos := updateFirst id (fun _ => applyUpdate now input t) s.todos } =
             .ok (applyUpdate now input t) ∧
         (applyUpdate now input t).id = t.id ∧
         (applyUpdate now input t).createdAt = t.createdAt ∧
         (applyUpdate now input t).updatedAt = now ∧
         (input.title.isSome = false → (applyUpdate now input t).title = t.title) ∧
         (input.title.isSome = true →
           (applyUpdate now input t).title = jsTrim (optStr input.title)) ∧
         (input.description.isSome = false →
           (applyUpdate now input t).description = t.description) ∧
         (input.description.isSome = true →
           (applyUpdate now input t).description = jsTrim (optStr input.description)) ∧
         (input.completed.isSome = false →
           (applyUpdate now input t).completed = t.completed) ∧
         (input.completed.isSome = true →
           (applyUpdate now input t).completed = optBool input.completed)))) := by
  refine ⟨?_, ?_⟩
  · intro hf
    simp [updateTodo, hf]
  · intro t hf
    have htid : t.id = id := by simpa using List.find?_some hf
    refine ⟨?_, ?_⟩
    · rw [isValidationErr_updateTodo_found hf]
      exact updateBad_true_iff input
    · intro hv
      have hfid : ∀ u : Todo, u.id = id →
          ((fun _ => applyUpdate now input t) u).id = u.id := by
        intro u hu
        show (applyUpdate now input t).id = u.id
        rw [applyUpdate_id, htid, hu]
      refine ⟨?_, ?_, rfl, rfl, rfl, ?_, ?_, ?_, ?_, ?_, ?_⟩
      · simp only [updateTodo, hf, hv]
      · simp [getTodoById, find?_updateFirst hfid s.todos, hf]
      · intro h
        simp [applyUpdate, h]
      · intro h
        simp [applyUpdate, h]
      · intro h
        simp [applyUpdate, h]
      · intro h
        simp [applyUpdate, h]
      · intro h
        simp [applyUpdate, h]
      · intro h
        simp [applyUpdate, h]

/-- C10: updating an existing todo with an empty partial input succeeds,
refreshes `updatedAt`, and leaves every other field — and the stored
collection's shape — unchanged. -/
theorem updateTodo_empty_spec (now id : Nat) (s : ServiceState) (t : Todo)
    (hf : s.todos.find? (fun u => u.id == id) = some t) :
    updateTodo now id {} s =
      (.ok { t with updatedAt := now },
       { s with todos := updateFirst id (fun _ => { t with updatedAt := now }) s.todos }) ∧
    ({ t with updatedAt := now } : Todo).id = t.id ∧
    ({ t with updatedAt := now } : Todo).title = t.title ∧
    ({ t with updatedAt := now } : Todo).description = t.description ∧
    ({ t with updatedAt := now } : Todo).completed = t.completed ∧
    ({ t with updatedAt := now } : Todo).createdAt = t.createdAt ∧
    ({ t with updatedAt := now } : Todo).updatedAt = now ∧
    getTodoById id
      { s with todos := updateFirst id (fun _ => { t with updatedAt := now }) s.todos } =
        .ok { t with updatedAt := now } := by
  have htid : t.id = id := by simpa using List.find?_some hf
  have hfid : ∀ u : Todo, u.id = id →
      ((fun _ => ({ t with updatedAt := now } : Todo)) u).id = u.id := by
    intro u hu
    show ({ t with updatedAt := now } : Todo).id = u.id
    show t.id = u.id
    rw [htid, hu]
  refine ⟨?_, rfl, rfl, rfl, rfl, rfl, rfl, ?_⟩
  · simp only [updateTodo, hf]
    rfl
  · simp [getTodoById, find?_updateFirst hfid s.todos, hf]

/-- Witness for C10 at a concrete state. -/
theorem updateTodo_empty_spec_witness :
    updateTodo 7 1 {} { todos := [{ id := 1, title := "a", description := "", completed := false, createdAt := 0, updatedAt := 0 }], nextId := 2 } =
      (.ok { id := 1, title := "a", description := "", completed := false, createdAt := 0, updatedAt := 7 },
       { todos := [{ id := 1, title := "a", description := "", completed := false, createdAt := 0, updatedAt := 7 }], nextId := 2 }) := by
  have h := updateTodo_empty_spec 7 1
    { todos := [{ id := 1, title := "a", description := "", completed := false, createdAt := 0, updatedAt := 0 }], nextId := 2 }
    { id := 1, title := "a", description := "", completed := false, createdAt := 0, updatedAt := 0 }
    (by decide)
  exact h.1

theorem validateCreate_error_is_validation {input : CreateTodoInput} {e : TodoError}
    (h : validateCreateInput input = .error e) : ∃ m, e = .validation m := by
  unfold validateCreateInput at h
  split_ifs at h
  all_goals
    first
    | (injection h with h2; exact ⟨_, h2.symm⟩)
    | (exact absurd h (by simp))

theorem validateUpdate_error_is_validation {input : UpdateTodoInput} {e : TodoError}
    (h : validateUpdateInput input = .error e) : ∃ m, e = .validation m := by
  unfold validateUpdateInput at h
  split_ifs at h
  all_goals
    first
    | (injection h with h2; exact ⟨_, h2.symm⟩)
    | (exact absurd h (by simp))

/-- C4: deleting a present id removes exactly that todo from the
collection and returns it; afterwards a lookup of the id and a second
delete both fail with not-found; deleting an absent id fails with
not-found. -/
theorem deleteTodo_spec (id : Nat) (s : ServiceState)
    (hnd : List.Pairwise (· ≠ ·) (s.todos.map Todo.id)) :
    (s.todos.find? (fun t => t.id == id) = none →
      deleteTodo id s = (.error .notFound, s)) ∧
    (∀ t, s.todos.find? (fun t => t.id == id) = some t →
      deleteTodo id s = (.ok t, { s with todos := removeFirst id s.todos }) ∧
      (removeFirst id s.todos).length + 1 = s.todos.length ∧
      (∀ u ∈ removeFirst id s.todos, u ∈ s.todos) ∧
      t ∉ removeFirst id s.todos ∧
      getTodoById id { s with todos := removeFirst id s.todos } = .error .notFound ∧
      deleteTodo id { s with todos := removeFirst id s.todos } =
        (.error .notFound, { s with todos := removeFirst id s.todos })) := by
  refine ⟨?_, ?_⟩
  · intro hf
    simp [deleteTodo, hf]
  · intro t hf
    have hnone : (removeFirst id s.todos).find? (fun t => t.id == id) = none :=
      find?_removeFirst_none hnd
    refine ⟨?_, removeFirst_length hf, fun u hu => (removeFirst_sublist id s.todos).subset hu,
      ?_, ?_, ?_⟩
    · simp only [deleteTodo, hf]
    · intro hmem
      have heq := List.find?_some hf
      have hne := List.find?_eq_none.mp hnone t hmem
      exact hne heq
    · simp [getTodoById, hnone]
    · simp [deleteTodo, hnone]

/-- Witness for C4 at a concrete state. -/
theorem deleteTodo_spec_witness :
    deleteTodo 1 { todos := [{ id := 1, title := "a", description := "", completed := false, createdAt := 0, updatedAt := 0 }], nextId := 2 } =
      (.ok { id := 1, title := "a", description := "", completed := false, createdAt := 0, updatedAt := 0 },
       { todos := ([] : List Todo), nextId := 2 }) ∧
    getTodoById 1 { todos := ([] : List Todo), nextId := 2 } = .error .notFound ∧
    deleteTodo 1 { todos := ([] : List Todo), nextId := 2 } =
      (.error .notFound, { todos := ([] : List Todo), nextId := 2 }) := by
  have h := deleteTodo_spec 1
    { todos := [{ id := 1, title := "a", description := "", completed := false, createdAt := 0, updatedAt := 0 }], nextId := 2 }
    (by decide)
  have h2 := h.2 { id := 1, title := "a", description := "", completed := false, createdAt := 0, updatedAt := 0 } (by decide)
  exact ⟨h2.1, h2.2.2.2.2.1, h2.2.2.2.2.2⟩

/-- C5: toggling a present id negates its completed flag and refreshes
`updatedAt`, leaving id, title, description and `createdAt` unchanged
(the returned record shows the changed fields explicitly); an absent id
fails with not-found; and after creating a single todo and toggling it,
the todo is completed and the completion rate is 100. -/
theorem toggleTodo_spec (now id : Nat) (s : ServiceState) :
    (s.todos.find? (fun t => t.id == id) = none →
      toggleTodo now id s = (.error .notFound, s)) ∧
    (∀ t, s.todos.find? (fun t => t.id == id) = some t →
      toggleTodo now id s =
        (.ok { t with completed := !t.completed, updatedAt := now },
         { s with todos := updateFirst id (fun _ => { t with completed := !t.completed, updatedAt := now }) s.todos }) ∧
      getTodoById id { s with todos := updateFirst id (fun _ => { t with completed := !t.completed, updatedAt := now }) s.todos } =
          .ok { t with completed := !t.completed, updatedAt := now }) ∧
    ((toggleTodo 1 1 (createTodo 0 { title := some (.vstr "a") } initialState).2).1 =
       .ok { id := 1, title := "a", description := "", completed := true,
             createdAt := 0, updatedAt := 1 } ∧
     (getStats (toggleTodo 1 1
        (createTodo 0 { title := some (.vstr "a") } initialState).2).2).completionRate = 100) := by
  refine ⟨?_, ?_, ?_⟩
  · intro hf
    simp [toggleTodo, hf]
  · intro t hf
    have htid : t.id = id := by simpa using List.find?_some hf
    have hfid : ∀ u : Todo, u.id = id →
        ((fun _ => ({ t with completed := !t.completed, updatedAt := now } : Todo)) u).id
          = u.id := by
      intro u hu
      show t.id = u.id
      rw [htid, hu]
    refine ⟨?_, ?_⟩
    · simp only [toggleTodo, hf]
    · simp [getTodoById, find?_updateFirst hfid s.todos, hf]
  · decide

/-- C6: `getStats` is total; its fields satisfy the specified equations,
with the completion rate the floor of `(200*completed + total)/(2*total)`
— the exact value of `Math.round(completed/total*100)` — when the
collection is non-empty, and zero otherwise; creating three todos and
completing one yields `{total 3, completed 1, pending 2, rate 33}`. -/
theorem getStats_spec (s : ServiceState) :
    (getStats s).total = s.todos.length ∧
    (getStats s).completed = (s.todos.filter (fun t => t.completed)).length ∧
    (getStats s).completed ≤ (getStats s).total ∧
    (getStats s).pending + (getStats s).completed = (getStats s).total ∧
    (s.todos.length = 0 → (getStats s).completionRate = 0) ∧
    (0 < s.todos.length →
      2 * s.todos.length * (getStats s).completionRate ≤
        200 * (getStats s).completed + s.todos.length ∧
      200 * (getStats s).completed + s.todos.length <
        2 * s.todos.length * ((getStats s).completionRate + 1)) ∧
    getStats (toggleTodo 3 1
      ((createTodo 2 { title := some (.vstr "c") }
        ((createTodo 1 { title := some (.vstr "b") }
          ((createTodo 0 { title := some (.vstr "a") } initialState).2)).2)).2)).2 =
      { total := 3, completed := 1, pending := 2, completionRate := 33 } := by
  have hle : (s.todos.filter (fun t => t.completed)).length ≤ s.todos.length :=
    List.length_filter_le _ _
  refine ⟨rfl, rfl, hle, ?_, ?_, ?_, ?_⟩
  · show s.todos.length - (s.todos.filter (fun t => t.completed)).length +
      (s.todos.filter (fun t => t.completed)).length = s.todos.length
    omega
  · intro h
    simp [getStats, h]
  · intro h
    have hcomp : (getStats s).completed =
        (s.todos.filter (fun t => t.completed)).length := rfl
    have hrate : (getStats s).completionRate =
        (200 * (s.todos.filter (fun t => t.completed)).length + s.todos.length) /
          (2 * s.todos.length) := by
      simp [getStats, h]
    have h1 := Nat.div_add_mod
      (200 * (s.todos.filter (fun t => t.completed)).length + s.todos.length)
      (2 * s.todos.length)
    have h2 := Nat.mod_lt
      (200 * (s.todos.filter (fun t => t.completed)).length + s.todos.length)
      (show 0 < 2 * s.todos.length by omega)
    rw [hrate, hcomp]
    constructor
    · omega
    · rw [Nat.mul_succ]
      omega
  · decide

/-- C7: every state reachable from a fresh service under a monotone
clock has strictly increasing (hence distinct, insertion-ordered) ids,
all below the next id to be assigned, no title empty after trimming, and
`updatedAt ≥ createdAt` on every stored todo. -/
theorem reachable_state_invariants (s : ServiceState) (ids : List Nat) (h : Reaches s ids) :
    List.Pairwise (· < ·) (s.todos.map Todo.id) ∧
    (s.todos.map Todo.id).Nodup ∧
    (∀ t ∈ s.todos, t.id < s.nextId) ∧
    (∀ t ∈ s.todos, jsTrim t.title ≠ "") ∧
    (∀ t ∈ s.todos, t.createdAt ≤ t.updatedAt) := by
  obtain ⟨⟨h1, h2, h3, h4⟩, -⟩ := reaches_inv h
  exact ⟨h1, h1.imp (fun hab => Nat.ne_of_lt hab), h2, h3, h4⟩

/-- Witness for C7 at a concrete reachable state. -/
theorem reachable_state_invariants_witness :
    List.Pairwise (· < ·)
      (((createTodo 5 { title := some (.vstr "a") } initialState).2).todos.map Todo.id) ∧
    ((((createTodo 5 { title := some (.vstr "a") } initialState).2).todos.map Todo.id)).Nodup ∧
    (∀ t ∈ ((createTodo 5 { title := some (.vstr "a") } initialState).2).todos,
      t.id < ((createTodo 5 { title := some (.vstr "a") } initialState).2).nextId) ∧
    (∀ t ∈ ((createTodo 5 { title := some (.vstr "a") } initialState).2).todos,
      jsTrim t.title ≠ "") ∧
    (∀ t ∈ ((createTodo 5 { title := some (.vstr "a") } initialState).2).todos,
      t.createdAt ≤ t.updatedAt) :=
  reachable_state_invariants _ _
    (Reaches.create Reaches.init (by intro t ht; simp [initialState] at ht))

/-- C8 counterexample: a create call that passes validation but carries
the falsy non-string description `false` fails with a `TypeError` — not
a validation error and not a not-found — after the object literal has
already executed `this.nextId++`: the failed create consumes an id, a
partial-failure state. -/
theorem createTodo_typeerror_consumes_id :
    isValidationErr (createTodo 0 { title := some (.vstr "a"), description := some (.vbool false) } initialState).1 = false ∧
    isNotFoundErr (createTodo 0 { title := some (.vstr "a"), description := some (.vbool false) } initialState).1 = false ∧
    (createTodo 0 { title := some (.vstr "a"), description := some (.vbool false) } initialState).1 =
      .error (.typeError "input.description?.trim is not a function") ∧
    (createTodo 0 { title := some (.vstr "a"), description := some (.vbool false) } initialState).2.nextId = 2 ∧
    initialState.nextId = 1 ∧
    (createTodo 0 { title := some (.vstr "a"), description := some (.vbool false) } initialState).2 ≠ initialState := by
  decide

/-- C8 amended: whenever `createTodo` or `updateTodo` fails with a
validation error, or `updateTodo`, `deleteTodo` or `toggleTodo` fails
with not-found, the stored collection and the next-id counter are
exactly as before the call (a create rejected by validation consumes no
id); the one partial failure is the `TypeError` create of the
counterexample, which is neither kind. -/
theorem atomicity_validation_notfound (now id : Nat)
    (cin : CreateTodoInput) (uin : UpdateTodoInput) (s : ServiceState) :
    (isValidationErr (createTodo now cin s).1 = true → (createTodo now cin s).2 = s) ∧
    (isValidationErr (updateTodo now id uin s).1 = true → (updateTodo now id uin s).2 = s) ∧
    (isNotFoundErr (updateTodo now id uin s).1 = true → (updateTodo now id uin s).2 = s) ∧
    (isNotFoundErr (deleteTodo id s).1 = true → (deleteTodo id s).2 = s) ∧
    (isNotFoundErr (toggleTodo now id s).1 = true → (toggleTodo now id s).2 = s) := by
  refine ⟨?_, ?_, ?_, ?_, ?_⟩
  · intro hve
    rcases hv : validateCreateInput cin with e | u
    · simp [createTodo, hv]
    · exfalso
      rw [isValidationErr_createTodo] at hve
      have hb : createBad cin = false := by
        have h2 := isValidationErr_validateCreate cin
        rw [hv] at h2
        simpa [isValidationErr] using h2.symm
      rw [hb] at hve
      simp at hve
  · intro hve
    rcases hf : s.todos.find? (fun t => t.id == id) with _ | t
    · simp [updateTodo, hf]
    · rcases hv : validateUpdateInput uin with e | u
      · simp [updateTodo, hf, hv]
      · exfalso
        simp [updateTodo, hf, hv, isValidationErr] at hve
  · intro hnf
    rcases hf : s.todos.find? (fun t => t.id == id) with _ | t
    · simp [updateTodo, hf]
    · exfalso
      rcases hv : validateUpdateInput uin with e | u
      · obtain ⟨m, rfl⟩ := validateUpdate_error_is_validation hv
        simp [updateTodo, hf, hv, isNotFoundErr] at hnf
      · simp [updateTodo, hf, hv, isNotFoundErr] at hnf
  · intro hnf
    rcases hf : s.todos.find? (fun t => t.id == id) with _ | t
    · simp [deleteTodo, hf]
    · exfalso
      simp [deleteTodo, hf, isNotFoundErr] at hnf
  · intro hnf
    rcases hf : s.todos.find? (fun t => t.id == id) with _ | t
    · simp [toggleTodo, hf]
    · exfalso
      simp [toggleTodo, hf, isNotFoundErr] at hnf

namespace RefModel

theorem find?_heapSet_ne {h : List (Nat × Todo)} {a b : Nat} {t : Todo} (hne : b ≠ a) :
    (heapSet h a t).find? (fun p => p.1 == b) = h.find? (fun p => p.1 == b) := by
  induction h with
  | nil => rfl
  | cons p ps ih =>
    simp only [heapSet, List.map_cons]
    by_cases hp : p.1 = a
    · rw [if_pos (by simpa using hp)]
      have hab : (a == b) = false := by simpa using Ne.symm hne
      have hpb : (p.1 == b) = false := by rw [hp]; exact hab
      simp [List.find?_cons, hab, hpb, heapSet] at ih ⊢
      exact ih
    · rw [if_neg (by simpa using hp)]
      by_cases hb : p.1 = b
      · simp [List.find?_cons, hb]
      · have hpb : (p.1 == b) = false := by simpa using hb
        simp [List.find?_cons, hpb, heapSet] at ih ⊢
        exact ih

theorem heapGet_heapSet_ne {h : List (Nat × Todo)} {a b : Nat} {t : Todo} (hne : b ≠ a) :
    heapGet (heapSet h a t) b = heapGet h b := by
  unfold heapGet
  rw [find?_heapSet_ne hne]

theorem heapGet_cons_ne {q : Nat × Todo} {h : List (Nat × Todo)} {b : Nat} (hne : ¬ q.1 = b) :
    heapGet (q :: h) b = heapGet h b := by
  unfold heapGet
  rw [List.find?_cons_of_neg _ (by simpa using hne)]

/-- C9 counterexample: after one create, `getAllTodos` returns the array
`[0]` whose element is the service's own object reference; overwriting
the object at that reference changes what the service itself stores. -/
theorem getAllTodos_element_aliases_store :
    serviceView (createTodoR 0 { title := some (.vstr "Buy milk") } initialH).2 =
      [{ id := 1, title := "Buy milk", description := "", completed := false, createdAt := 0, updatedAt := 0 }] ∧
    getAllTodosR (createTodoR 0 { title := some (.vstr "Buy milk") } initialH).2 = [0] ∧
    serviceView (heapWrite 0 { id := 1, title := "hacked", description := "", completed := false, createdAt := 0, updatedAt := 0 } (createTodoR 0 { title := some (.vstr "Buy milk") } initialH).2) =
      [{ id := 1, title := "hacked", description := "", completed := false, createdAt := 0, updatedAt := 0 }] ∧
    serviceView (heapWrite 0 { id := 1, title := "hacked", description := "", completed := false, createdAt := 0, updatedAt := 0 } (createTodoR 0 { title := some (.vstr "Buy milk") } initialH).2) ≠
      serviceView (createTodoR 0 { title := some (.vstr "Buy milk") } initialH).2 := by
  decide

/-- C9 amended: `getTodoById` does return a defensive copy — the
reference it hands out is fresh, and overwriting the object behind it
never changes what the service stores; the lookup itself leaves the
stored values unchanged.  (`getAllTodos` copies only the array: its
elements alias the store, as the counterexample shows.) -/
theorem getTodoByIdR_defensive (id : Nat) (s : HState)
    (hbound : ∀ a ∈ s.storeRefs, a < s.nextAddr) :
    ∀ c s1, getTodoByIdR id s = (.ok c, s1) →
      c ∉ s1.storeRefs ∧
      serviceView s1 = serviceView s ∧
      ∀ t2, serviceView (heapWrite c t2 s1) = serviceView s := by
  intro c s1 heq
  rcases hf : s.storeRefs.find? (fun a => (heapGet s.heap a).id == id) with _ | a
  · simp [getTodoByIdR, hf] at heq
  · simp only [getTodoByIdR, hf, alloc] at heq
    rw [Prod.mk.injEq] at heq
    obtain ⟨hc, hs1⟩ := heq
    injection hc with hc
    subst hc
    subst hs1
    refine ⟨?_, ?_, ?_⟩
    · intro hmem
      exact absurd (hbound _ hmem) (Nat.lt_irrefl _)
    · unfold serviceView
      apply List.map_congr_left
      intro b hb
      exact heapGet_cons_ne (by simpa using Nat.ne_of_gt (hbound b hb))
    · intro t2
      unfold serviceView heapWrite
      apply List.map_congr_left
      intro b hb
      have hbne : b ≠ s.nextAddr := Nat.ne_of_lt (hbound b hb)
      have h1 : heapSet ((s.nextAddr, heapGet s.heap a) :: s.heap) s.nextAddr t2 =
          (s.nextAddr, t2) :: heapSet s.heap s.nextAddr t2 := by
        simp [heapSet]
      rw [h1, heapGet_cons_ne (by simpa using Nat.ne_of_gt (hbound b hb)),
        heapGet_heapSet_ne hbne]

/-- Witness for the amended C9 theorem at a concrete state. -/
theorem getTodoByIdR_defensive_witness :
    (2 : Nat) ∉ ((getTodoByIdR 1 (createTodoR 0 { title := some (.vstr "Buy milk") } initialH).2).2).storeRefs ∧
    serviceView (getTodoByIdR 1 (createTodoR 0 { title := some (.vstr "Buy milk") } initialH).2).2 =
      serviceView (createTodoR 0 { title := some (.vstr "Buy milk") } initialH).2 ∧
    serviceView (heapWrite 2 { id := 9, title := "mutated", description := "", completed := true, createdAt := 4, updatedAt := 4 } (getTodoByIdR 1 (createTodoR 0 { title := some (.vstr "Buy milk") } initialH).2).2) =
      serviceView (createTodoR 0 { title := some (.vstr "Buy milk") } initialH).2 := by
  have h := getTodoByIdR_defensive 1 (createTodoR 0 { title := some (.vstr "Buy milk") } initialH).2
    (by decide) 2 (getTodoByIdR 1 (createTodoR 0 { title := some (.vstr "Buy milk") } initialH).2).2
    (by decide)
  exact ⟨h.1, h.2.1, h.2.2 _⟩

end RefModel

end TodoApp
